import Mathlib

/-!
Verification of the URL-shortener service (`app.py`): a shallow embedding of
the short-code subsystem — code generation with collision retry, the shorten,
redirect, stats and delete operations — together with proofs of the spec's
claims about it.

Modelling conventions:
* Python strings are `List Char` (`Str`), so `strip`, `startswith` and
  truncation are ordinary list functions with Python's semantics.
* The database is a `Store`: the `url` table, the `click` table, and the
  autoincrement counters for the two primary keys.
* `random.choices` is modelled by an external supply `Nat → Nat` of draws;
  each draw indexes the 62-character alphabet modulo 62.
* The unbounded retry loop of `generate_short_code` takes explicit fuel and
  returns `Option`; `none` only means the fuel ran out.
* A commit that may fail is modelled by a `commitOk : Bool` input; the
  `try/except` blocks of the source become a case split on it.
-/

namespace URLShortener

/-- Python strings as lists of characters. -/
abbrev Str := List Char

/-- The whitespace characters stripped by Python's `str.strip()` (ASCII part). -/
def pyIsSpace (c : Char) : Bool :=
  c == ' ' || c == '\t' || c == '\n' || c == '\x0d' || c == '\x0b' || c == '\x0c'

/-- Python `s.startswith(p)`: `p` is an initial segment of `s`. -/
def startswith : Str → Str → Bool
  | _, [] => true
  | [], _ :: _ => false
  | c :: s, d :: p => c == d && startswith s p

/-- Remove trailing whitespace (the right half of Python `strip()`). -/
def stripEnd (s : Str) : Str :=
  (s.reverse.dropWhile pyIsSpace).reverse

/-- Python `s.strip()`: remove leading and trailing whitespace. -/
def pyStrip (s : Str) : Str :=
  stripEnd (s.dropWhile pyIsSpace)

/-- The literal `"http://"`. -/
def httpL : Str := "http://".toList

/-- The literal `"https://"`. -/
def httpsL : Str := "https://".toList

/-- A row of the `url` table (model `URL` in `app.py`). -/
structure URLRec where
  id : Nat
  original_url : Str
  short_code : Str
  clicks : Nat
  created_at : Nat
deriving DecidableEq, Repr

/-- A row of the `click` table (model `Click` in `app.py`). -/
structure ClickRec where
  id : Nat
  url_id : Nat
  clicked_at : Nat
  ip : Str
  user_agent : Str
  referrer : Str
deriving DecidableEq, Repr

/-- The persistent store: both tables plus the autoincrement counters. -/
structure Store where
  urls : List URLRec
  clickEvents : List ClickRec
  nextUrlId : Nat
  nextClickId : Nat
deriving DecidableEq, Repr

/-- `string.ascii_letters + string.digits`: the 62-symbol alphabet. -/
def characters : Str :=
  "abcdefghijklmnopqrstuvwxyzABCDEFGHIJKLMNOPQRSTUVWXYZ0123456789".toList

/-- One candidate code: `"".join(random.choices(characters, k=length))`, the
`k`-th attempt drawing its characters from the supply. -/
def drawCode (supply : Nat → Nat) (length k : Nat) : Str :=
  (List.range length).map (fun i => characters.getD (supply (k * length + i) % 62) 'a')

/-- `URL.query.filter_by(short_code=code).first()`. -/
def findByCode (s : Store) (code : Str) : Option URLRec :=
  s.urls.find? (fun u => u.short_code == code)

/-- `URL.query.get(url_id)`: primary-key lookup. -/
def findById (s : Store) (url_id : Nat) : Option URLRec :=
  s.urls.find? (fun u => u.id == url_id)

/-- The collision check of `generate_short_code`: no stored record has the code. -/
def isFreeCode (s : Store) (code : Str) : Bool :=
  (findByCode s code).isNone

/-- `generate_short_code(length)`: draw a candidate, return it if collision-free,
otherwise retry with the next draw. The source loop is unbounded; `fuel` bounds
the model and `k` counts the attempts already made. -/
def generate_short_code (s : Store) (supply : Nat → Nat) (length fuel k : Nat) :
    Option Str :=
  match fuel with
  | 0 => none
  | fuel' + 1 =>
    let code := drawCode supply length k
    if isFreeCode s code then some code
    else generate_short_code s supply length fuel' (k + 1)

/-- `is_valid_url`: `url.startswith(("http://", "https://"))`. -/
def is_valid_url (url : Str) : Bool :=
  startswith url httpL || startswith url httpsL

/-- Outcome of `POST /shorten`: the success payload or a 400 validation error. -/
inductive ShortenResult where
  | ok (short_url short_code original_url : Str)
  | validationError (error : Str)
deriving DecidableEq, Repr

/-- `shorten_url`: strip the submitted url, validate it, generate a unique code,
insert the new record and commit, and return the constructed short URL.
Returns `none` only when the generator's fuel runs out. -/
def shorten_url (s : Store) (supply : Nat → Nat) (fuel : Nat) (rawUrl base : Str)
    (now : Nat) : Option (ShortenResult × Store) :=
  let original_url := pyStrip rawUrl
  if original_url.isEmpty then
    some (.validationError "URL is required".toList, s)
  else if !(is_valid_url original_url) then
    some (.validationError "Invalid URL. Must start with http:// or https://".toList, s)
  else
    match generate_short_code s supply 6 fuel 0 with
    | none => none
    | some code =>
      let newUrl : URLRec :=
        { id := s.nextUrlId, original_url := original_url, short_code := code,
          clicks := 0, created_at := now }
      some (.ok (base ++ '/' :: code) code original_url,
            { s with urls := s.urls ++ [newUrl], nextUrlId := s.nextUrlId + 1 })

/-- Outcome of `GET /<short_code>`: a redirect to the stored URL or a 404 page. -/
inductive RedirectResult where
  | redirect (location : Str)
  | notFound (short_code : Str)
deriving DecidableEq, Repr

/-- `redirect_to_url`: look the code up; on a hit, build the click event,
increment the counter and commit — on commit failure roll back — and in either
case redirect to the stored original URL. `commitOk` tells whether the commit
inside the `try` succeeds. -/
def redirect_to_url (s : Store) (commitOk : Bool) (short_code : Str) (now : Nat)
    (ip ua ref : Str) : RedirectResult × Store :=
  match findByCode s short_code with
  | none => (.notFound short_code, s)
  | some url_entry =>
    if commitOk then
      let click : ClickRec :=
        { id := s.nextClickId, url_id := url_entry.id, clicked_at := now,
          ip := ip, user_agent := ua.take 512, referrer := ref.take 512 }
      (.redirect url_entry.original_url,
       { s with
          urls := s.urls.map (fun v =>
            if v.id == url_entry.id then { v with clicks := v.clicks + 1 } else v),
          clickEvents := s.clickEvents ++ [click],
          nextClickId := s.nextClickId + 1 })
    else
      (.redirect url_entry.original_url, s)

/-- Outcome of `GET /stats/<short_code>`. -/
inductive StatsResult where
  | found (short_code original_url : Str) (clicks : Nat) (created_at : Nat)
      (last_click_at : Option Nat)
  | notFound
deriving DecidableEq, Repr

/-- The `clicked_at` of the most recent click, `order_by(clicked_at.desc()).first()`. -/
def lastClickAt : List Nat → Option Nat
  | [] => none
  | t :: ts => some (ts.foldl max t)

/-- `get_stats`: a read of the record's fields, its click counter and its most
recent click time; the store is passed through untouched. -/
def get_stats (s : Store) (short_code : Str) : StatsResult × Store :=
  match findByCode s short_code with
  | none => (.notFound, s)
  | some url_entry =>
    let evs := s.clickEvents.filter (fun c => c.url_id == url_entry.id)
    (.found url_entry.short_code url_entry.original_url url_entry.clicks
       url_entry.created_at (lastClickAt (evs.map (fun c => c.clicked_at))), s)

/-- Outcome of `POST /delete/<id>`: success, 404, or a 500 on commit failure. -/
inductive DeleteResult where
  | ok
  | notFound
  | storageError
deriving DecidableEq, Repr

/-- `delete_url`: primary-key lookup, then delete the record — the
`cascade="all, delete-orphan"` relationship removes its click rows — and
commit, rolling back on failure. -/
def delete_url (s : Store) (commitOk : Bool) (url_id : Nat) : DeleteResult × Store :=
  match findById s url_id with
  | none => (.notFound, s)
  | some _ =>
    if commitOk then
      (.ok,
       { s with
          urls := s.urls.filter (fun v => !(v.id == url_id)),
          clickEvents := s.clickEvents.filter (fun c => !(c.url_id == url_id)) })
    else
      (.storageError, s)

/-- The spec's uniqueness invariant: no two stored records share a `short_code`. -/
def Uniq (s : Store) : Prop :=
  s.urls.Pairwise (fun a b => a.short_code ≠ b.short_code)

/-- Iterated redirect: `K` successive hits on the same code (commits succeeding),
collecting the per-call results and threading the store. -/
def redirectK (short_code : Str) (now : Nat) (ip ua ref : Str) :
    Nat → Store → List RedirectResult × Store
  | 0, s => ([], s)
  | k + 1, s =>
    let step := redirect_to_url s true short_code now ip ua ref
    let rest := redirectK short_code now ip ua ref k step.2
    (step.1 :: rest.1, rest.2)

/-- A sequence of shorten requests, each with its own random supply and
submitted url, threading the store through. -/
def shortenN (fuel : Nat) (base : Str) (now : Nat) :
    List ((Nat → Nat) × Str) → Store → Store
  | [], s => s
  | (sup, u) :: rest, s =>
    match shorten_url s sup fuel u base now with
    | none => shortenN fuel base now rest s
    | some (_, s') => shortenN fuel base now rest s'

/-- Number of click events referencing the record with the given id. -/
def eventCount (s : Store) (url_id : Nat) : Nat :=
  (s.clickEvents.filter (fun c => c.url_id == url_id)).length

/-- The empty store right after `db.create_all()`. -/
def emptyStore : Store :=
  { urls := [], clickEvents := [], nextUrlId := 1, nextClickId := 1 }

/-- A degenerate random supply: every draw is the first alphabet character. -/
def zeroSupply : Nat → Nat := fun _ => 0

/-- A supply whose every draw is the second alphabet character. -/
def oneSupply : Nat → Nat := fun _ => 1

/-- A sample click event row, for concrete instantiations. -/
def demoClick : ClickRec :=
  { id := 1, url_id := 1, clicked_at := 3, ip := "1.2.3.4".toList,
    user_agent := [], referrer := [] }

/-- A store with one clicked-once record and its click event. -/
def demoStoreClicked : Store :=
  { urls := [{ id := 1, original_url := "https://example.com/page".toList,
               short_code := "Abc123".toList, clicks := 1, created_at := 0 }],
    clickEvents := [demoClick], nextUrlId := 2, nextClickId := 2 }

/-- A sample stored record, for concrete instantiations. -/
def demoRec : URLRec :=
  { id := 1, original_url := "https://example.com/page".toList,
    short_code := "Abc123".toList, clicks := 0, created_at := 0 }

/-- A store holding just `demoRec`. -/
def demoStore : Store :=
  { urls := [demoRec], clickEvents := [], nextUrlId := 2, nextClickId := 1 }

/-! ### Helper lemmas -/

theorem startswith_append (p t : Str) : startswith (p ++ t) p = true := by
  induction p with
  | nil => cases t <;> rfl
  | cons c p ih => simp [startswith, ih]

theorem startswith_exists {s p : Str} (h : startswith s p = true) :
    ∃ t, s = p ++ t := by
  induction p generalizing s with
  | nil => exact ⟨s, rfl⟩
  | cons c p ih =>
    cases s with
    | nil => simp [startswith] at h
    | cons a s =>
      simp only [startswith, Bool.and_eq_true, beq_iff_eq] at h
      obtain ⟨rfl, h2⟩ := h
      obtain ⟨t, rfl⟩ := ih h2
      exact ⟨t, rfl⟩

theorem pyStrip_startswith {s : Str} (c : Char) (rest : Str)
    (hc : pyIsSpace c = false)
    (hrev : (c :: rest).reverse.dropWhile pyIsSpace = (c :: rest).reverse)
    (h : startswith s (c :: rest) = true) :
    startswith (pyStrip s) (c :: rest) = true := by
  obtain ⟨t, rfl⟩ := startswith_exists h
  have hfront : ((c :: rest) ++ t).dropWhile pyIsSpace = (c :: rest) ++ t := by
    simp [List.dropWhile_cons, hc]
  unfold pyStrip stripEnd
  rw [hfront, List.reverse_append, List.dropWhile_append]
  split
  · rw [hrev, List.reverse_reverse]
    have := startswith_append (c :: rest) ([] : Str)
    simpa using this
  · rw [List.reverse_append, List.reverse_reverse]
    exact startswith_append _ _

theorem pyStrip_valid {s : Str} (h : is_valid_url s = true) :
    is_valid_url (pyStrip s) = true := by
  unfold is_valid_url at h ⊢
  rcases Bool.or_eq_true_iff.mp h with h1 | h1
  · have : startswith (pyStrip s) httpL = true :=
      pyStrip_startswith 'h' ("ttp://".toList) (by decide) (by decide) h1
    simp [this]
  · have : startswith (pyStrip s) httpsL = true :=
      pyStrip_startswith 'h' ("ttps://".toList) (by decide) (by decide) h1
    simp [this]

theorem isEmpty_false_of_valid {s : Str} (h : is_valid_url s = true) :
    s.isEmpty = false := by
  unfold is_valid_url at h
  rcases Bool.or_eq_true_iff.mp h with h1 | h1 <;>
    obtain ⟨t, rfl⟩ := startswith_exists h1 <;> rfl

theorem generate_spec (s : Store) (supply : Nat → Nat) (len : Nat) :
    ∀ fuel k c, generate_short_code s supply len fuel k = some c →
      ∃ j, k ≤ j ∧ c = drawCode supply len j ∧ isFreeCode s c = true ∧
        ∀ i, k ≤ i → i < j → isFreeCode s (drawCode supply len i) = false := by
  intro fuel
  induction fuel with
  | zero => intro k c h; simp [generate_short_code] at h
  | succ f ih =>
    intro k c h
    unfold generate_short_code at h
    by_cases hf : isFreeCode s (drawCode supply len k) = true
    · simp only [hf, if_true, Option.some.injEq] at h
      subst h
      exact ⟨k, Nat.le_refl k, rfl, hf, fun i hki hik => absurd hki (by omega)⟩
    · simp only [hf, if_false, Bool.false_eq_true] at h
      obtain ⟨j, hkj, hc, hfree, hmin⟩ := ih (k + 1) c h
      refine ⟨j, by omega, hc, hfree, fun i hki hij => ?_⟩
      rcases Nat.eq_or_lt_of_le hki with rfl | hlt
      · simpa using hf
      · exact hmin i hlt hij

theorem drawCode_length (supply : Nat → Nat) (len k : Nat) :
    (drawCode supply len k).length = len := by
  simp [drawCode]

theorem getD_mem_characters (n : Nat) :
    characters.getD (n % 62) 'a' ∈ characters := by
  have hlen : characters.length = 62 := by decide
  have h : n % 62 < characters.length := by
    rw [hlen]; exact Nat.mod_lt n (by decide)
  rw [List.getD_eq_getElem characters 'a' h]
  exact List.getElem_mem h

theorem drawCode_mem {supply : Nat → Nat} {len k : Nat} {ch : Char}
    (h : ch ∈ drawCode supply len k) : ch ∈ characters := by
  simp only [drawCode, List.mem_map, List.mem_range] at h
  obtain ⟨i, _, rfl⟩ := h
  exact getD_mem_characters _

theorem invalid_rejected {rawUrl : Str} (s : Store) (supply : Nat → Nat)
    (fuel : Nat) (base : Str) (now : Nat)
    (h : is_valid_url (pyStrip rawUrl) = false) :
    ∃ msg, shorten_url s supply fuel rawUrl base now =
      some (.validationError msg, s) := by
  by_cases he : (pyStrip rawUrl).isEmpty
  · exact ⟨"URL is required".toList, by simp [shorten_url, he]⟩
  · exact ⟨"Invalid URL. Must start with http:// or https://".toList,
      by simp [shorten_url, he, h]⟩

theorem get_stats_snd (s : Store) (code : Str) : (get_stats s code).2 = s := by
  cases h : findByCode s code with
  | none => simp [get_stats, h]
  | some u => simp [get_stats, h]

theorem bump_short_code (i : Nat) (v : URLRec) :
    (if v.id == i then { v with clicks := v.clicks + 1 } else v).short_code =
      v.short_code := by
  split <;> rfl

theorem free_not_mem {s : Store} {code : Str} (hfree : isFreeCode s code = true) :
    ∀ u ∈ s.urls, u.short_code ≠ code := by
  intro u hu
  have hnone : s.urls.find? (fun v => v.short_code == code) = none :=
    Option.isNone_iff_eq_none.mp hfree
  have := List.find?_eq_none.mp hnone u hu
  simpa using this

theorem shorten_preserves_uniq {s : Store} (h : Uniq s) (supply : Nat → Nat)
    (fuel : Nat) (rawUrl base : Str) (now : Nat) (r : ShortenResult) (s' : Store)
    (hs : shorten_url s supply fuel rawUrl base now = some (r, s')) : Uniq s' := by
  by_cases hv : is_valid_url (pyStrip rawUrl) = true
  · have he : (pyStrip rawUrl).isEmpty = false := isEmpty_false_of_valid hv
    rw [shorten_url, he, hv] at hs
    simp only [Bool.false_eq_true, if_false, Bool.not_true, Bool.true_eq_false] at hs
    cases hg : generate_short_code s supply 6 fuel 0 with
    | none => rw [hg] at hs; exact absurd hs (by simp)
    | some code =>
      rw [hg] at hs
      simp only [Option.some.injEq, Prod.mk.injEq] at hs
      obtain ⟨-, hs'⟩ := hs
      obtain ⟨j, -, -, hfree, -⟩ := generate_spec s supply 6 fuel 0 code hg
      rw [← hs']
      unfold Uniq
      rw [List.pairwise_append]
      refine ⟨h, List.pairwise_singleton _ _, ?_⟩
      intro a ha b hb
      simp only [List.mem_singleton] at hb
      subst hb
      exact free_not_mem hfree a ha
  · have hv' : is_valid_url (pyStrip rawUrl) = false := by
      cases hx : is_valid_url (pyStrip rawUrl)
      · rfl
      · exact absurd hx hv
    obtain ⟨msg, hmsg⟩ := invalid_rejected s supply fuel base now hv'
    rw [hmsg] at hs
    simp only [Option.some.injEq, Prod.mk.injEq] at hs
    rw [← hs.2]
    exact h

theorem redirect_preserves_uniq {s : Store} (h : Uniq s) (ok : Bool) (code : Str)
    (now : Nat) (ip ua ref : Str) :
    Uniq (redirect_to_url s ok code now ip ua ref).2 := by
  unfold redirect_to_url
  cases hf : findByCode s code with
  | none => exact h
  | some u =>
    cases ok with
    | false => exact h
    | true =>
      simp only [if_true]
      unfold Uniq
      rw [List.pairwise_map]
      exact h.imp (fun {a b} hab => by rw [bump_short_code, bump_short_code]; exact hab)

theorem delete_preserves_uniq {s : Store} (h : Uniq s) (ok : Bool) (i : Nat) :
    Uniq (delete_url s ok i).2 := by
  unfold delete_url
  cases hf : findById s i with
  | none => exact h
  | some u =>
    cases ok with
    | false => exact h
    | true => exact h.sublist (List.filter_sublist _)

theorem redirectK_succ (code : Str) (now : Nat) (ip ua ref : Str) (k : Nat)
    (s : Store) :
    redirectK code now ip ua ref (k + 1) s =
      ((redirect_to_url s true code now ip ua ref).1 ::
         (redirectK code now ip ua ref k
           (redirect_to_url s true code now ip ua ref).2).1,
       (redirectK code now ip ua ref k
         (redirect_to_url s true code now ip ua ref).2).2) := rfl

theorem redirect_step {s : Store} {code : Str} {u : URLRec}
    (hf : findByCode s code = some u) (now : Nat) (ip ua ref : Str) :
    (redirect_to_url s true code now ip ua ref).1 =
      RedirectResult.redirect u.original_url ∧
    findByCode (redirect_to_url s true code now ip ua ref).2 code =
      some { u with clicks := u.clicks + 1 } ∧
    eventCount (redirect_to_url s true code now ip ua ref).2 u.id =
      eventCount s u.id + 1 := by
  have hred : redirect_to_url s true code now ip ua ref =
      (RedirectResult.redirect u.original_url,
       { s with
          urls := s.urls.map (fun v =>
            if v.id == u.id then { v with clicks := v.clicks + 1 } else v),
          clickEvents := s.clickEvents ++
            [{ id := s.nextClickId, url_id := u.id, clicked_at := now,
               ip := ip, user_agent := ua.take 512, referrer := ref.take 512 }],
          nextClickId := s.nextClickId + 1 }) := by
    unfold redirect_to_url
    rw [hf]
    rfl
  rw [hred]
  refine ⟨rfl, ?_, ?_⟩
  · unfold findByCode
    dsimp only
    rw [List.find?_map]
    have hcomp :
        ((fun v : URLRec => v.short_code == code) ∘
          (fun v => if v.id == u.id then { v with clicks := v.clicks + 1 } else v)) =
        (fun v : URLRec => v.short_code == code) := by
      funext v
      simp only [Function.comp]
      rw [bump_short_code]
    rw [hcomp]
    unfold findByCode at hf
    rw [hf]
    simp
  · unfold eventCount
    dsimp only
    rw [List.filter_append]
    simp

theorem shortenN_preserves_uniq (fuel : Nat) (base : Str) (now : Nat) :
    ∀ (reqs : List ((Nat → Nat) × Str)) (s : Store), Uniq s →
      Uniq (shortenN fuel base now reqs s) := by
  intro reqs
  induction reqs with
  | nil => intro s h; exact h
  | cons req rest ih =>
    intro s h
    obtain ⟨sup, u⟩ := req
    unfold shortenN
    cases hs : shorten_url s sup fuel u base now with
    | none => exact ih s h
    | some rs =>
      exact ih rs.2 (shorten_preserves_uniq h sup fuel u base now rs.1 rs.2
        (by rw [hs]))

end URLShortener

namespace URLShortener

/-! ### The claims -/

/-- C1: the spec demands that the click-increment and event insertion be
committed durably before the redirect reports success, and that a commit
failure not be silently reported as success. The code violates this: on a
failed commit it rolls back (losing the increment and the event) and still
returns the redirect. Concretely, with one stored record and a failing
commit, `redirect_to_url` returns the success redirect while the store —
click counter included — is unchanged. -/
theorem c1_commit_failure_reported_as_success :
    redirect_to_url demoStore false ("Abc123".toList) 7 ("1.2.3.4".toList) [] [] =
      (.redirect ("https://example.com/page".toList), demoStore) := by decide

/-- C9: `get_stats` is a pure read: the store after the call is the store
before it, and a second consecutive call returns the identical result — in
particular the identical `clicks` value. -/
theorem c9_get_stats_pure_read (s : Store) (code : Str) :
    (get_stats s code).2 = s ∧
    get_stats (get_stats s code).2 code = get_stats s code := by
  have h2 : (get_stats s code).2 = s := get_stats_snd s code
  exact ⟨h2, by rw [h2]⟩

/-- C7: on a `short_code` with no matching record, `redirect_to_url` and
`get_stats` return not-found with the store unchanged, and on an `id` with no
matching record `delete_url` returns not-found with the store unchanged. -/
theorem c7_not_found_no_side_effects (s : Store) (code : Str) (i now : Nat)
    (ip ua ref : Str) (ok : Bool)
    (hc : findByCode s code = none) (hi : findById s i = none) :
    redirect_to_url s ok code now ip ua ref = (.notFound code, s) ∧
    get_stats s code = (.notFound, s) ∧
    delete_url s ok i = (.notFound, s) := by
  refine ⟨?_, ?_, ?_⟩ <;> simp [redirect_to_url, get_stats, delete_url, hc, hi]

/-- C7 witness: the not-found behaviour at the empty store. -/
theorem c7_not_found_witness :
    findByCode emptyStore ("Abc123".toList) = none ∧
    findById emptyStore 1 = none ∧
    redirect_to_url emptyStore true ("Abc123".toList) 0 [] [] [] =
      (.notFound ("Abc123".toList), emptyStore) ∧
    get_stats emptyStore ("Abc123".toList) = (.notFound, emptyStore) ∧
    delete_url emptyStore true 1 = (.notFound, emptyStore) := by
  have h := c7_not_found_no_side_effects emptyStore ("Abc123".toList) 1 0 [] [] []
    true (by decide) (by decide)
  exact ⟨by decide, by decide, h.1, h.2.1, h.2.2⟩

/-- C6 counterexample: the input `" https://example.com"` (leading space) is
nonempty and does not start with `http://` or `https://`, yet `shorten_url`
accepts it — it strips the whitespace first — returning success and inserting
a record, where the claim demands a validation error and an unchanged store. -/
theorem c6_counterexample_leading_space_accepted :
    (" https://example.com".toList ≠ ([] : Str)) ∧
    startswith (" https://example.com".toList) httpL = false ∧
    startswith (" https://example.com".toList) httpsL = false ∧
    shorten_url emptyStore zeroSupply 1 (" https://example.com".toList)
        ("http://sh.rt".toList) 0 =
      some (.ok ("http://sh.rt/aaaaaa".toList) ("aaaaaa".toList)
              ("https://example.com".toList),
            { urls := [{ id := 1, original_url := "https://example.com".toList,
                         short_code := "aaaaaa".toList, clicks := 0, created_at := 0 }],
              clickEvents := [], nextUrlId := 2, nextClickId := 1 }) := by
  exact ⟨by decide, by decide, by decide, by decide⟩

/-- C6 amended: for every input whose whitespace-stripped form is empty or
does not start with `http://` or `https://`, `shorten_url` returns a
validation error (HTTP 400) and the store is unchanged. -/
theorem c6_invalid_input_rejected (s : Store) (supply : Nat → Nat) (fuel : Nat)
    (rawUrl base : Str) (now : Nat)
    (h : is_valid_url (pyStrip rawUrl) = false) :
    ∃ msg, shorten_url s supply fuel rawUrl base now =
      some (.validationError msg, s) :=
  invalid_rejected s supply fuel base now h

/-- C6 witness: a concrete invalid input is rejected with the store unchanged. -/
theorem c6_invalid_input_witness :
    is_valid_url (pyStrip ("not-a-valid-url".toList)) = false ∧
    ∃ msg, shorten_url emptyStore zeroSupply 1 ("not-a-valid-url".toList)
        ("http://sh.rt".toList) 0 = some (.validationError msg, emptyStore) :=
  ⟨by decide, c6_invalid_input_rejected emptyStore zeroSupply 1 _ _ 0 (by decide)⟩

/-- C3: whenever the generator returns a code, that code has exactly 6
characters, each from the 62-symbol alphabet, no stored record already has it,
and it is the first collision-free candidate in the sequence of draws. -/
theorem c3_generate_first_free_code (s : Store) (supply : Nat → Nat) (fuel : Nat)
    (c : Str) (h : generate_short_code s supply 6 fuel 0 = some c) :
    c.length = 6 ∧
    (∀ ch ∈ c, ch ∈ characters) ∧
    characters.length = 62 ∧
    isFreeCode s c = true ∧
    ∃ k, c = drawCode supply 6 k ∧
      ∀ j < k, isFreeCode s (drawCode supply 6 j) = false := by
  obtain ⟨j, -, hc, hfree, hmin⟩ := generate_spec s supply 6 fuel 0 c h
  subst hc
  exact ⟨drawCode_length supply 6 j, fun ch hch => drawCode_mem hch, by decide,
    hfree, j, rfl, fun i hij => hmin i (Nat.zero_le i) hij⟩

/-- C3 witness: at the empty store with the all-zero supply, the generator
returns `"aaaaaa"` and the guarantees hold for it. -/
theorem c3_generate_witness :
    generate_short_code emptyStore zeroSupply 6 1 0 = some ("aaaaaa".toList) ∧
    (("aaaaaa".toList : Str).length = 6 ∧
     (∀ ch ∈ ("aaaaaa".toList : Str), ch ∈ characters) ∧
     characters.length = 62 ∧
     isFreeCode emptyStore ("aaaaaa".toList) = true ∧
     ∃ k, ("aaaaaa".toList : Str) = drawCode zeroSupply 6 k ∧
       ∀ j < k, isFreeCode emptyStore (drawCode zeroSupply 6 j) = false) :=
  ⟨by decide,
   c3_generate_first_free_code emptyStore zeroSupply 1 ("aaaaaa".toList) (by decide)⟩

/-- C5: on any input that starts with `http://` or `https://`, whenever
`shorten_url` returns it succeeds: the result carries a 6-character code from
the alphabet, the short URL is the base, a slash and the code, and exactly one
new record was inserted and is retrievable under that code. -/
theorem c5_shorten_valid_url (s : Store) (supply : Nat → Nat) (fuel : Nat)
    (rawUrl base : Str) (now : Nat) (r : ShortenResult) (s' : Store)
    (hv : is_valid_url rawUrl = true)
    (h : shorten_url s supply fuel rawUrl base now = some (r, s')) :
    ∃ code,
      r = .ok (base ++ '/' :: code) code (pyStrip rawUrl) ∧
      code.length = 6 ∧
      (∀ ch ∈ code, ch ∈ characters) ∧
      findByCode s' code =
        some { id := s.nextUrlId, original_url := pyStrip rawUrl,
               short_code := code, clicks := 0, created_at := now } ∧
      s'.urls.length = s.urls.length + 1 := by
  have hval : is_valid_url (pyStrip rawUrl) = true := pyStrip_valid hv
  have he : (pyStrip rawUrl).isEmpty = false := isEmpty_false_of_valid hval
  rw [shorten_url, he, hval] at h
  simp only [Bool.false_eq_true, if_false, Bool.not_true, Bool.true_eq_false] at h
  cases hg : generate_short_code s supply 6 fuel 0 with
  | none => rw [hg] at h; exact absurd h (by simp)
  | some code =>
    rw [hg] at h
    simp only [Option.some.injEq, Prod.mk.injEq] at h
    obtain ⟨hr, hs'⟩ := h
    obtain ⟨j, -, hc, hfree, -⟩ := generate_spec s supply 6 fuel 0 code hg
    refine ⟨code, hr.symm, ?_, ?_, ?_, ?_⟩
    · rw [hc]; exact drawCode_length supply 6 j
    · intro ch hch; rw [hc] at hch; exact drawCode_mem hch
    · rw [← hs']
      unfold findByCode
      rw [List.find?_append]
      have hnone : s.urls.find? (fun u => u.short_code == code) = none := by
        have := hfree
        unfold isFreeCode findByCode at this
        exact Option.isNone_iff_eq_none.mp this
      rw [hnone]
      simp
    · rw [← hs']; simp

/-- C5 witness: shortening `"https://example.com"` at the empty store. -/
theorem c5_shorten_witness :
    is_valid_url ("https://example.com".toList) = true ∧
    ∃ code,
      ShortenResult.ok ("http://sh.rt/aaaaaa".toList) ("aaaaaa".toList)
          ("https://example.com".toList) =
        .ok (("http://sh.rt".toList : Str) ++ '/' :: code) code
          (pyStrip ("https://example.com".toList)) ∧
      code.length = 6 ∧
      (∀ ch ∈ code, ch ∈ characters) ∧
      findByCode { urls := [{ id := 1, original_url := "https://example.com".toList,
                              short_code := "aaaaaa".toList, clicks := 0,
                              created_at := 0 }],
                   clickEvents := [], nextUrlId := 2, nextClickId := 1 } code =
        some { id := emptyStore.nextUrlId,
               original_url := pyStrip ("https://example.com".toList),
               short_code := code, clicks := 0, created_at := 0 } ∧
      (({ urls := [{ id := 1, original_url := "https://example.com".toList,
                     short_code := "aaaaaa".toList, clicks := 0,
                     created_at := 0 }],
          clickEvents := [], nextUrlId := 2, nextClickId := 1 } : Store)).urls.length =
        emptyStore.urls.length + 1 :=
  ⟨by decide,
   c5_shorten_valid_url emptyStore zeroSupply 1 ("https://example.com".toList)
     ("http://sh.rt".toList) 0 _ _ (by decide) (by decide)⟩

/-- C10: shorten strips the input of surrounding whitespace before anything
else, accepts exactly when the stripped string starts with `http://` or
`https://`, and persists the stripped string as `original_url`; whenever the
operation returns, the result is a validation error precisely when the
stripped input fails that test, and on success the inserted record's
`original_url` is the stripped input. -/
theorem c10_strip_then_validate (s : Store) (supply : Nat → Nat) (fuel : Nat)
    (rawUrl base : Str) (now : Nat) (r : ShortenResult) (s' : Store)
    (h : shorten_url s supply fuel rawUrl base now = some (r, s')) :
    ((∃ msg, r = .validationError msg) ↔
      is_valid_url (pyStrip rawUrl) = false) ∧
    (∀ su c ou, r = .ok su c ou →
      ou = pyStrip rawUrl ∧
      { id := s.nextUrlId, original_url := pyStrip rawUrl, short_code := c,
        clicks := 0, created_at := now } ∈ s'.urls) := by
  by_cases hv : is_valid_url (pyStrip rawUrl) = true
  · have he : (pyStrip rawUrl).isEmpty = false := isEmpty_false_of_valid hv
    rw [shorten_url, he, hv] at h
    simp only [Bool.false_eq_true, if_false, Bool.not_true, Bool.true_eq_false] at h
    cases hg : generate_short_code s supply 6 fuel 0 with
    | none => rw [hg] at h; exact absurd h (by simp)
    | some code =>
      rw [hg] at h
      simp only [Option.some.injEq, Prod.mk.injEq] at h
      obtain ⟨hr, hs'⟩ := h
      constructor
      · constructor
        · rintro ⟨msg, hmsg⟩; rw [← hr] at hmsg; exact absurd hmsg (by simp)
        · intro hfalse; rw [hv] at hfalse; exact absurd hfalse (by simp)
      · intro su c ou hok
        rw [← hr] at hok
        injection hok with h1 h2 h3
        subst h2
        refine ⟨h3.symm, ?_⟩
        rw [← hs']
        simp
  · have hv' : is_valid_url (pyStrip rawUrl) = false := by
      cases hx : is_valid_url (pyStrip rawUrl)
      · rfl
      · exact absurd hx hv
    obtain ⟨msg, hmsg⟩ := invalid_rejected s supply fuel base now hv'
    rw [hmsg] at h
    simp only [Option.some.injEq, Prod.mk.injEq] at h
    obtain ⟨hr, hs'⟩ := h
    constructor
    · exact ⟨fun _ => hv', fun _ => ⟨msg, hr.symm⟩⟩
    · intro su c ou hok
      rw [← hr] at hok
      exact absurd hok (by simp)

/-- C2: short-code uniqueness is an invariant: from any store with pairwise
distinct codes, every operation — shorten, redirect, stats, delete, and any
sequence of shorten requests — leaves the codes pairwise distinct, so no two
records ever share a `short_code`. -/
theorem c2_short_code_uniqueness (s : Store) (h : Uniq s) :
    (∀ supply fuel rawUrl base now r s',
        shorten_url s supply fuel rawUrl base now = some (r, s') → Uniq s') ∧
    (∀ ok code now ip ua ref, Uniq (redirect_to_url s ok code now ip ua ref).2) ∧
    (∀ code, Uniq (get_stats s code).2) ∧
    (∀ ok i, Uniq (delete_url s ok i).2) ∧
    (∀ fuel base now reqs, Uniq (shortenN fuel base now reqs s)) := by
  refine ⟨?_, ?_, ?_, ?_, ?_⟩
  · intro supply fuel rawUrl base now r s' hs
    exact shorten_preserves_uniq h supply fuel rawUrl base now r s' hs
  · intro ok code now ip ua ref
    exact redirect_preserves_uniq h ok code now ip ua ref
  · intro code
    rw [get_stats_snd]
    exact h
  · intro ok i
    exact delete_preserves_uniq h ok i
  · intro fuel base now reqs
    exact shortenN_preserves_uniq fuel base now reqs s h

/-- C2 witness: uniqueness holds at the one-record store and is kept by a
redirect and by a sequence of two shorten requests. -/
theorem c2_uniqueness_witness :
    Uniq demoStore ∧
    Uniq (redirect_to_url demoStore true ("Abc123".toList) 0 [] [] []).2 ∧
    Uniq (shortenN 1 ("http://sh.rt".toList) 0
      [(zeroSupply, "https://a.com".toList), (oneSupply, "https://b.com".toList)]
      demoStore) := by
  have hu : Uniq demoStore := by
    unfold Uniq demoStore
    decide
  have h := c2_short_code_uniqueness demoStore hu
  exact ⟨hu, h.2.1 true ("Abc123".toList) 0 [] [] [],
    h.2.2.2.2 1 ("http://sh.rt".toList) 0
      [(zeroSupply, "https://a.com".toList), (oneSupply, "https://b.com".toList)]⟩

/-- C4: with a record stored under the code, `K` redirects in a row each
return a redirect to the stored `original_url`, increase that record's
`clicks` by exactly `K`, and add exactly `K` click events referencing it. -/
theorem c4_click_accounting (s : Store) (code : Str) (u : URLRec) (now : Nat)
    (ip ua ref : Str) (K : Nat) (hf : findByCode s code = some u) :
    (redirectK code now ip ua ref K s).1 =
      List.replicate K (RedirectResult.redirect u.original_url) ∧
    findByCode (redirectK code now ip ua ref K s).2 code =
      some { u with clicks := u.clicks + K } ∧
    eventCount (redirectK code now ip ua ref K s).2 u.id =
      eventCount s u.id + K := by
  induction K generalizing s u with
  | zero => exact ⟨rfl, hf, rfl⟩
  | succ k ih =>
    obtain ⟨h1, h2, h3⟩ := redirect_step hf now ip ua ref
    obtain ⟨ih1, ih2, ih3⟩ := ih _ _ h2
    rw [redirectK_succ]
    have ih1' :
        (redirectK code now ip ua ref k
          (redirect_to_url s true code now ip ua ref).2).1 =
        List.replicate k (RedirectResult.redirect u.original_url) := ih1
    have ih2' :
        findByCode (redirectK code now ip ua ref k
          (redirect_to_url s true code now ip ua ref).2).2 code =
        some { u with clicks := u.clicks + 1 + k } := ih2
    have ih3' :
        eventCount (redirectK code now ip ua ref k
          (redirect_to_url s true code now ip ua ref).2).2 u.id =
        eventCount (redirect_to_url s true code now ip ua ref).2 u.id + k := ih3
    refine ⟨?_, ?_, ?_⟩
    · rw [List.replicate_succ, h1, ih1']
    · rw [ih2']
      have harith : u.clicks + 1 + k = u.clicks + (k + 1) := by omega
      rw [harith]
    · rw [ih3', h3]
      omega

/-- C4 witness: two redirects on the stored record double-step its counter
from 0 to 2 and log two events. -/
theorem c4_click_witness :
    findByCode demoStore ("Abc123".toList) = some demoRec ∧
    ((redirectK ("Abc123".toList) 3 ("1.2.3.4".toList) [] [] 2 demoStore).1 =
       List.replicate 2 (RedirectResult.redirect demoRec.original_url) ∧
     findByCode
         (redirectK ("Abc123".toList) 3 ("1.2.3.4".toList) [] [] 2 demoStore).2
         ("Abc123".toList) =
       some { demoRec with clicks := demoRec.clicks + 2 } ∧
     eventCount
         (redirectK ("Abc123".toList) 3 ("1.2.3.4".toList) [] [] 2 demoStore).2
         demoRec.id =
       eventCount demoStore demoRec.id + 2) :=
  ⟨by decide,
   c4_click_accounting demoStore ("Abc123".toList) demoRec 3 ("1.2.3.4".toList)
     [] [] 2 (by decide)⟩

/-- C8: deleting an existing record removes exactly that record and exactly
the click events referencing it, leaving no row that mentions its id, and a
stats lookup for its `short_code` immediately afterwards is not-found. -/
theorem c8_delete_cascade (s : Store) (i : Nat) (u : URLRec)
    (hu : Uniq s) (hf : findById s i = some u) :
    delete_url s true i =
      (.ok,
       { s with
          urls := s.urls.filter (fun v => !(v.id == i)),
          clickEvents := s.clickEvents.filter (fun c => !(c.url_id == i)) }) ∧
    (∀ v ∈ (delete_url s true i).2.urls, v.id ≠ i) ∧
    (∀ c ∈ (delete_url s true i).2.clickEvents, c.url_id ≠ i) ∧
    (get_stats (delete_url s true i).2 u.short_code).1 = .notFound := by
  have hdel : delete_url s true i =
      (.ok,
       { s with
          urls := s.urls.filter (fun v => !(v.id == i)),
          clickEvents := s.clickEvents.filter (fun c => !(c.url_id == i)) }) := by
    unfold delete_url
    rw [hf]
    rfl
  refine ⟨hdel, ?_, ?_, ?_⟩
  · rw [hdel]
    intro v hv
    have h2 := (List.mem_filter.mp hv).2
    simpa using h2
  · rw [hdel]
    intro c hc
    have h2 := (List.mem_filter.mp hc).2
    simpa using h2
  · rw [hdel]
    have hmem : u ∈ s.urls := List.mem_of_find?_eq_some hf
    have hid : u.id = i := by
      have := List.find?_some hf
      simpa using this
    have hu' : s.urls.Pairwise (fun a b => a.short_code ≠ b.short_code) := hu
    have hnone :
        findByCode
          { s with
             urls := s.urls.filter (fun v => !(v.id == i)),
             clickEvents := s.clickEvents.filter (fun c => !(c.url_id == i)) }
          u.short_code = none := by
      unfold findByCode
      dsimp only
      rw [List.find?_eq_none]
      intro v hv hbeq
      have hv2 := List.mem_filter.mp hv
      have hvid : v.id ≠ i := by simpa using hv2.2
      have heq : v.short_code = u.short_code := by simpa using hbeq
      by_cases hveq : v = u
      · exact hvid (hveq ▸ hid)
      · have hsymm : Symmetric (fun a b : URLRec => a.short_code ≠ b.short_code) :=
          fun a b hab hba => hab hba.symm
        exact List.Pairwise.forall hsymm hu' hv2.1 hmem hveq heq
    simp [get_stats, hnone]

/-- C8 witness: deleting the single clicked record removes it and its click
event, and the follow-up stats lookup is not-found. -/
theorem c8_delete_witness :
    Uniq demoStoreClicked ∧
    findById demoStoreClicked 1 =
      some { id := 1, original_url := "https://example.com/page".toList,
             short_code := "Abc123".toList, clicks := 1, created_at := 0 } ∧
    (delete_url demoStoreClicked true 1 =
      (.ok,
       { demoStoreClicked with
          urls := demoStoreClicked.urls.filter (fun v => !(v.id == 1)),
          clickEvents :=
            demoStoreClicked.clickEvents.filter (fun c => !(c.url_id == 1)) }) ∧
     (∀ v ∈ (delete_url demoStoreClicked true 1).2.urls, v.id ≠ 1) ∧
     (∀ c ∈ (delete_url demoStoreClicked true 1).2.clickEvents, c.url_id ≠ 1) ∧
     (get_stats (delete_url demoStoreClicked true 1).2
        ({ id := 1, original_url := "https://example.com/page".toList,
           short_code := "Abc123".toList, clicks := 1,
           created_at := 0 } : URLRec).short_code).1 = .notFound) := by
  have hu : Uniq demoStoreClicked := by
    unfold Uniq demoStoreClicked
    decide
  have hf : findById demoStoreClicked 1 =
      some { id := 1, original_url := "https://example.com/page".toList,
             short_code := "Abc123".toList, clicks := 1, created_at := 0 } := by
    decide
  exact ⟨hu, hf, c8_delete_cascade demoStoreClicked 1 _ hu hf⟩

/-- C10 witness: `"  http://  "` — surrounding whitespace, bare scheme, no
host — is accepted, and the persisted `original_url` is the stripped
`"http://"`. -/
theorem c10_strip_witness :
    ((∃ msg, ShortenResult.ok ("http://sh.rt/aaaaaa".toList) ("aaaaaa".toList)
        ("http://".toList) = .validationError msg) ↔
      is_valid_url (pyStrip ("  http://  ".toList)) = false) ∧
    (∀ su c ou, ShortenResult.ok ("http://sh.rt/aaaaaa".toList) ("aaaaaa".toList)
        ("http://".toList) = .ok su c ou →
      ou = pyStrip ("  http://  ".toList) ∧
      { id := emptyStore.nextUrlId, original_url := pyStrip ("  http://  ".toList),
        short_code := c, clicks := 0, created_at := 0 } ∈
        ({ urls := [{ id := 1, original_url := "http://".toList,
                      short_code := "aaaaaa".toList, clicks := 0, created_at := 0 }],
           clickEvents := [], nextUrlId := 2, nextClickId := 1 } : Store).urls) := by
  have h := c10_strip_then_validate emptyStore zeroSupply 1 ("  http://  ".toList)
    ("http://sh.rt".toList) 0
    (.ok ("http://sh.rt/aaaaaa".toList) ("aaaaaa".toList) ("http://".toList))
    ({ urls := [{ id := 1, original_url := "http://".toList,
                  short_code := "aaaaaa".toList, clicks := 0, created_at := 0 }],
       clickEvents := [], nextUrlId := 2, nextClickId := 1 }) (by decide)
  exact h

end URLShortener
